import Mathlib

/-!
Verification of the Exodus II codec (`exodus_io.py`) and the format
dispatcher (`meshio/helpers.py`) of the meshio repository.

Modelling conventions (shallow embedding):
* Python strings are modelled as `List Char`.
* numpy numeric scalars are modelled as `Int`; numeric arrays carry their
  numpy dtype name (`dtype`) alongside their data, since the codec looks the
  dtype name up in a fixed table when writing.
* The netCDF container is modelled as the `num_nodes` dimension together
  with the ordered list of named variables (creation order = iteration
  order, as in netCDF4/Python dicts).
* Fixed-width character grids (`S1` variables such as `name_nod_var`)
  are rows of `Option Char` cells: `none` is an unwritten (padding) cell,
  `some c` a written character.  Reading a row joins the written cells and
  drops the padding, which is what `b"".join` does on a numpy `S1` array
  whose unwritten cells read back as empty byte strings.
* Python dicts are association lists; a dict comprehension is `buildDict`
  (repeated keys keep their first position and last value).  The mesh's
  `point_data` dict additionally carries the distinct-keys invariant every
  dict has by construction.
* Fallible Python code (KeyError, IndexError, shape errors, assertions)
  is modelled with `Except`.
-/

/-- Association-list lookup with Python-dict semantics (distinct keys). -/
def alookup {β : Type} (k : List Char) : List (List Char × β) → Option β
  | [] => none
  | p :: ps => if p.1 = k then some p.2 else alookup k ps

/-- A key update that mirrors `d[k] = v` on a Python dict: replace the value
in place when the key is present, append otherwise. -/
def dictInsert {β : Type} (d : List (List Char × β)) (k : List Char) (v : β) :
    List (List Char × β) :=
  match d with
  | [] => [(k, v)]
  | p :: ps => if p.1 = k then (k, v) :: ps else p :: dictInsert ps k v

/-- Build a dict from a list of pairs, later pairs overriding earlier ones,
as a Python dict comprehension does. -/
def buildDict {β : Type} (ps : List (List Char × β)) : List (List Char × β) :=
  ps.foldl (fun d p => dictInsert d p.1 p.2) []

/-- `exodus_to_meshio_type` from `exodus_io.py`: the on-disk element-type
vocabulary mapped to the canonical meshio vocabulary, in source order. -/
def exodus_to_meshio_type : List (List Char × List Char) :=
  [ ("BEAM".toList, "line".toList)
  , ("BEAM2".toList, "line".toList)
  , ("BEAM3".toList, "line3".toList)
  , ("BAR2".toList, "line".toList)
  , ("SHELL".toList, "quad".toList)
  , ("SHELL4".toList, "quad".toList)
  , ("SHELL8".toList, "quad8".toList)
  , ("SHELL9".toList, "quad9".toList)
  , ("QUAD".toList, "quad".toList)
  , ("QUAD4".toList, "quad".toList)
  , ("QUAD5".toList, "quad5".toList)
  , ("QUAD8".toList, "quad8".toList)
  , ("QUAD9".toList, "quad9".toList)
  , ("TRIANGLE".toList, "triangle".toList)
  , ("TRI3".toList, "triangle".toList)
  , ("TRI7".toList, "triangle7".toList)
  , ("TRI6".toList, "triangle6".toList)
  , ("HEX".toList, "hexahedron".toList)
  , ("HEXAHEDRON".toList, "hexahedron".toList)
  , ("HEX8".toList, "hexahedron".toList)
  , ("HEX9".toList, "hexahedron9".toList)
  , ("HEX20".toList, "hexahedron20".toList)
  , ("HEX27".toList, "hexahedron27".toList)
  , ("TETRA".toList, "tetra".toList)
  , ("TETRA4".toList, "tetra4".toList)
  , ("TETRA8".toList, "tetra8".toList)
  , ("TETRA10".toList, "tetra10".toList)
  , ("TETRA14".toList, "tetra14".toList)
  , ("PYRAMID".toList, "pyramid".toList)
  , ("WEDGE".toList, "wedge".toList) ]

/-- `meshio_to_exodus_type = {v: k for k, v in exodus_to_meshio_type.items()}`:
the reverse mapping built by a dict comprehension, so for a canonical type
with several disk aliases the last-registered alias wins. -/
def meshio_to_exodus_type : List (List Char × List Char) :=
  buildDict (exodus_to_meshio_type.map (fun p => (p.2, p.1)))

/-- `numpy_to_exodus_dtype` from `exodus_io.py`. -/
def numpy_to_exodus_dtype : List (List Char × List Char) :=
  [ ("float32".toList, "f4".toList)
  , ("float64".toList, "f8".toList)
  , ("int8".toList, "i1".toList)
  , ("int16".toList, "i2".toList)
  , ("int32".toList, "i4".toList)
  , ("int64".toList, "i8".toList)
  , ("uint8".toList, "u1".toList)
  , ("uint16".toList, "u2".toList)
  , ("uint32".toList, "u4".toList)
  , ("uint64".toList, "u8".toList) ]

/-- Payload of a netCDF variable as the codec uses it: 1-D, 2-D and 3-D
numeric arrays, and 2-D fixed-width character grids (`S1` variables). -/
inductive VarData where
  | a1 (xs : List Int)
  | a2 (xs : List (List Int))
  | a3 (xs : List (List (List Int)))
  | s2 (rows : List (List (Option Char)))
deriving DecidableEq

/-- A stored netCDF variable: its optional `elem_type` attribute and its
payload.  Only `connect<k>` variables carry an `elem_type` attribute. -/
structure Var where
  elemType : Option (List Char) := none
  data : VarData
deriving DecidableEq

/-- The netCDF container: the `num_nodes` dimension and the named variables
in creation order.  Other dimensions are never consulted by `read`. -/
structure Container where
  numNodes : Nat
  vars : List (List Char × Var)
deriving DecidableEq

/-- Error kinds for the faults the Exodus codec can hit (Python exception
classes collapsed to tags). -/
inductive ExErr where
  | keyError
  | dtypeError
  | indexError
  | shapeError
  | missingAttr
  | typeError
deriving DecidableEq

/-- A numpy array: its dtype name together with its (Int-modelled) data. -/
structure NArr (α : Type) where
  dtype : List Char
  data : α
deriving DecidableEq

/-- The point-data mapping handed to `write`: a Python dict of field name
to per-node value array, so its keys are pairwise distinct by
construction (a dict cannot hold two entries under one key). -/
structure PointData where
  entries : List (List Char × NArr (List Int))
  nodupKeys : (entries.map (fun p => p.1)).Nodup

instance : DecidableEq PointData := fun a b =>
  if h : a.entries = b.entries then
    isTrue (by cases a; cases b; cases h; rfl)
  else isFalse (fun hc => h (by rw [hc]))

/-- The mesh data handed to / produced by the codec, mirroring the
parameters of `exodus_io.write` (`cell_data` and `field_data` are accepted
and ignored by the writer, exactly as in the source). -/
structure ExMesh where
  points : NArr (List (List Int))
  cells : List (List Char × NArr (List (List Int)))
  pointData : PointData
  cellData : List (List Char × List Int) := []
  fieldData : List (List Char × List Int) := []
  nsets : List (List Char × NArr (List Int)) := []
  ssets : List (List Char × NArr (List (Int × Int))) := []
deriving DecidableEq

/-- One column of a 2-D array (numpy `m[:, i]` with 0 for a missing cell;
the arrays the code handles are rectangular). -/
def col (m : List (List Int)) (i : Nat) : List Int :=
  m.map (fun r => r.getD i 0)

/-- numpy transpose `m.T` of a rectangular 2-D array. -/
def tr (m : List (List Int)) : List (List Int) :=
  match m with
  | [] => []
  | r :: _ => (List.range r.length).map (col m)

/-- numpy `shape[1]` of a rectangular 2-D array. -/
def shape1 (rows : List (List Int)) : Nat := (rows.headD []).length

/-- Decode one fixed-width `S1` row exactly as
`b"".join(c).decode("UTF-8")` does on a numpy byte array: written cells
contribute their character, padding cells contribute nothing. -/
def decodeRow (r : List (Option Char)) : List Char := r.filterMap id

/-- Encode a name into a fixed-width row of `len_string = 33` cells by the
per-character loop `for i, letter in enumerate(name): var[k, i] = letter`;
a name longer than 33 characters runs over the `len_string` dimension and
raises an index error. -/
def encodeRow33 (name : List Char) : Except ExErr (List (Option Char)) :=
  if name.length ≤ 33 then
    .ok (name.map some ++ List.replicate (33 - name.length) none)
  else .error .indexError

/-- Encode a list of names row by row. -/
def encodeAll : List (List Char) → Except ExErr (List (List (Option Char)))
  | [] => .ok []
  | n :: ns =>
    match encodeRow33 n with
    | .error e => .error e
    | .ok r =>
      match encodeAll ns with
      | .error e => .error e
      | .ok rs => .ok (r :: rs)

/-- Name of the `connect<k+1>` variable for 0-based block index `k`. -/
def connectName (k : Nat) : List Char := "connect".toList ++ (Nat.repr (k + 1)).toList

/-- Name of the `node_ns<k+1>` variable for 0-based set index `k`. -/
def nodeNsName (k : Nat) : List Char := "node_ns".toList ++ (Nat.repr (k + 1)).toList

/-- Name of the `elem_ss<k+1>` variable for 0-based set index `k`. -/
def elemSsName (k : Nat) : List Char := "elem_ss".toList ++ (Nat.repr (k + 1)).toList

/-- Name of the `side_ss<k+1>` variable for 0-based set index `k`. -/
def sideSsName (k : Nat) : List Char := "side_ss".toList ++ (Nat.repr (k + 1)).toList

/-- The `connect<k>` variables produced by the cell-block loop of `write`:
per block, the dtype of the array is looked up, the `elem_type` attribute is
the reverse registry entry for the canonical type, and the stored rows are
the 0-based rows incremented by 1. -/
def connectVars : Nat → List (List Char × NArr (List (List Int))) →
    Except ExErr (List (List Char × Var))
  | _, [] => .ok []
  | k, p :: ps =>
    match alookup p.2.dtype numpy_to_exodus_dtype with
    | none => .error .dtypeError
    | some _ =>
      match alookup p.1 meshio_to_exodus_type with
      | none => .error .keyError
      | some et =>
        match connectVars (k + 1) ps with
        | .error e => .error e
        | .ok rest =>
          .ok ((connectName k,
                { elemType := some et
                , data := .a2 (p.2.data.map (fun r => r.map (fun x => x + 1))) }) :: rest)

/-- The `name_nod_var` / `vals_nod_var` variables produced by the
point-data section of `write` (absent when there is no point data): the
field names are written as fixed-width rows, the storage dtype is taken
from the first field, each value array must fill the `num_nodes` slab it is
assigned to, and all fields land in time step 0. -/
def pointDataVars (pd : List (List Char × NArr (List Int))) (numNodes : Nat) :
    Except ExErr (List (List Char × Var)) :=
  match pd with
  | [] => .ok []
  | q :: _ =>
    match encodeAll (pd.map (fun p => p.1)) with
    | .error e => .error e
    | .ok nameRows =>
      match alookup q.2.dtype numpy_to_exodus_dtype with
      | none => .error .dtypeError
      | some _ =>
        if pd.all (fun p => p.2.data.length = numNodes) then
          .ok [ ("name_nod_var".toList, { data := .s2 nameRows })
              , ("vals_nod_var".toList, { data := .a3 [pd.map (fun p => p.2.data)] }) ]
        else .error .shapeError

/-- The per-set `node_ns<k>` variables of the node-set loop of `write`:
dtype looked up, node indices incremented by 1. -/
def nsetVars : Nat → List (List Char × NArr (List Int)) →
    Except ExErr (List (List Char × Var))
  | _, [] => .ok []
  | k, p :: ps =>
    match alookup p.2.dtype numpy_to_exodus_dtype with
    | none => .error .dtypeError
    | some _ =>
      match nsetVars (k + 1) ps with
      | .error e => .error e
      | .ok rest =>
        .ok ((nodeNsName k, { data := .a1 (p.2.data.map (fun x => x + 1)) }) :: rest)

/-- The node-set section of `write`: nothing when there are no node sets,
otherwise `ns_prop1`, the fixed-width `ns_names` grid, then one
`node_ns<k>` variable per set. -/
def nsetSection (ns : List (List Char × NArr (List Int))) :
    Except ExErr (List (List Char × Var)) :=
  match ns with
  | [] => .ok []
  | _ :: _ =>
    match encodeAll (ns.map (fun p => p.1)) with
    | .error e => .error e
    | .ok nameRows =>
      match nsetVars 0 ns with
      | .error e => .error e
      | .ok vs =>
        .ok (("ns_prop1".toList, { data := .a1 ((List.range ns.length).map Int.ofNat) })
             :: ("ns_names".toList, { data := .s2 nameRows }) :: vs)

/-- The per-set `elem_ss<k>` / `side_ss<k>` variable pairs of the side-set
loop of `write`: element indices (column 0) incremented by 1, local side
numbers (column 1) stored unmodified. -/
def ssetVars : Nat → List (List Char × NArr (List (Int × Int))) →
    Except ExErr (List (List Char × Var))
  | _, [] => .ok []
  | k, p :: ps =>
    match alookup p.2.dtype numpy_to_exodus_dtype with
    | none => .error .dtypeError
    | some _ =>
      match ssetVars (k + 1) ps with
      | .error e => .error e
      | .ok rest =>
        .ok ((elemSsName k, { data := .a1 (p.2.data.map (fun q => q.1 + 1)) })
             :: (sideSsName k, { data := .a1 (p.2.data.map (fun q => q.2)) }) :: rest)

/-- The side-set section of `write`: nothing when there are no side sets,
otherwise `ss_prop1`, `ss_names`, then the per-set variable pairs. -/
def ssetSection (ss : List (List Char × NArr (List (Int × Int)))) :
    Except ExErr (List (List Char × Var)) :=
  match ss with
  | [] => .ok []
  | _ :: _ =>
    match encodeAll (ss.map (fun p => p.1)) with
    | .error e => .error e
    | .ok nameRows =>
      match ssetVars 0 ss with
      | .error e => .error e
      | .ok vs =>
        .ok (("ss_prop1".toList, { data := .a1 ((List.range ss.length).map Int.ofNat) })
             :: ("ss_names".toList, { data := .s2 nameRows }) :: vs)

/-- The fixed-width `coor_names` grid written by `write`: the single
characters X, Y, Z in column 0 of the three rows. -/
def coorNamesRows : List (List (Option Char)) :=
  [ some ('X') :: List.replicate 32 none
  , some ('Y') :: List.replicate 32 none
  , some ('Z') :: List.replicate 32 none ]

/-- `exodus_io.write`: builds the container in the source's creation order:
the dummy time step, coordinate names, the transposed coordinate block
(dtype looked up from the points array, which must be N x 3), `eb_prop1`,
the cell blocks, the point-data section, the node-set section and the
side-set section.  `cell_data` and `field_data` never reach the disk. -/
def exWrite (m : ExMesh) : Except ExErr Container :=
  match alookup m.points.dtype numpy_to_exodus_dtype with
  | none => .error .dtypeError
  | some _ =>
    if m.points.data.all (fun r => r.length = 3) then
      match connectVars 0 m.cells with
      | .error e => .error e
      | .ok cvs =>
        match pointDataVars m.pointData.entries m.points.data.length with
        | .error e => .error e
        | .ok pvs =>
          match nsetSection m.nsets with
          | .error e => .error e
          | .ok nvs =>
            match ssetSection m.ssets with
            | .error e => .error e
            | .ok svs =>
              .ok { numNodes := m.points.data.length
                  , vars :=
                      [ ("time_whole".toList, { data := .a1 [0] })
                      , ("coor_names".toList, { data := .s2 coorNamesRows })
                      , ("coord".toList, { data := .a2 (tr m.points.data) })
                      , ("eb_prop1".toList,
                         { data := .a1 ((List.range m.cells.length).map Int.ofNat) }) ]
                      ++ cvs ++ pvs ++ nvs ++ svs }
    else .error .shapeError

/-- State threaded through the variable scan of `read`. -/
structure RState where
  points : List (List Int)
  cells : List (List Char × List (List Int))
  names : List (List Char)
  pd : List (List Int)
deriving DecidableEq

/-- The 5-tuple returned by `read`. -/
structure ReadResult where
  points : List (List Int)
  cells : List (List Char × List (List Int))
  pointData : List (List Char × List Int)
  cellData : List (List Char × List Int)
  fieldData : List (List Char × List Int)
deriving DecidableEq

/-- Python `cells[t] = vstack([cells[t], rows]) if t in cells else rows`:
stack onto the existing bucket in place, or append a fresh bucket. -/
def stackInsert (cells : List (List Char × List (List Int))) (ty : List Char)
    (rows : List (List Int)) : List (List Char × List (List Int)) :=
  match cells with
  | [] => [(ty, rows)]
  | p :: ps => if p.1 = ty then (p.1, p.2 ++ rows) :: ps else p :: stackInsert ps ty rows

/-- numpy `points[:, j] = xs` (the split-axis coordinate convention);
the assigned vector must match the number of rows. -/
def setCol (m : List (List Int)) (j : Nat) (xs : List Int) :
    Except ExErr (List (List Int)) :=
  if xs.length = m.length then .ok (m.zipWith (fun r x => r.set j x) xs)
  else .error .shapeError

/-- Payload projections (numpy raises when an operation meets an array of
the wrong rank, modelled as a type error). -/
def asA1 : VarData → Except ExErr (List Int)
  | .a1 xs => .ok xs
  | _ => .error .typeError

/-- Projection to a 2-D numeric payload. -/
def asA2 : VarData → Except ExErr (List (List Int))
  | .a2 xs => .ok xs
  | _ => .error .typeError

/-- Projection to a 3-D numeric payload. -/
def asA3 : VarData → Except ExErr (List (List (List Int)))
  | .a3 xs => .ok xs
  | _ => .error .typeError

/-- Projection to a character-grid payload. -/
def asS2 : VarData → Except ExErr (List (List (Option Char)))
  | .s2 xs => .ok xs
  | _ => .error .typeError

/-- One iteration of the variable scan of `read`, classifying a variable by
name exactly as the source's if/elif chain does: `key[:7] == "connect"`,
then `coord`, `coordx`, `coordy`, `coordz`, `name_nod_var` (decoded row by
row), `vals_nod_var` (only time step 0 kept), anything else ignored. -/
def readStep (st : RState) (kv : List Char × Var) : Except ExErr RState :=
  if kv.1.take 7 = "connect".toList then
    match kv.2.elemType with
    | none => .error .missingAttr
    | some et =>
      match alookup (et.map Char.toUpper) exodus_to_meshio_type with
      | none => .error .keyError
      | some mt =>
        match asA2 kv.2.data with
        | .error e => .error e
        | .ok rows =>
          .ok { st with cells :=
                  stackInsert st.cells mt (rows.map (fun r => r.map (fun x => x - 1))) }
  else if kv.1 = "coord".toList then
    match asA2 kv.2.data with
    | .error e => .error e
    | .ok rows => .ok { st with points := tr rows }
  else if kv.1 = "coordx".toList then
    match asA1 kv.2.data with
    | .error e => .error e
    | .ok xs =>
      match setCol st.points 0 xs with
      | .error e => .error e
      | .ok ps => .ok { st with points := ps }
  else if kv.1 = "coordy".toList then
    match asA1 kv.2.data with
    | .error e => .error e
    | .ok xs =>
      match setCol st.points 1 xs with
      | .error e => .error e
      | .ok ps => .ok { st with points := ps }
  else if kv.1 = "coordz".toList then
    match asA1 kv.2.data with
    | .error e => .error e
    | .ok xs =>
      match setCol st.points 2 xs with
      | .error e => .error e
      | .ok ps => .ok { st with points := ps }
  else if kv.1 = "name_nod_var".toList then
    match asS2 kv.2.data with
    | .error e => .error e
    | .ok g => .ok { st with names := g.map decodeRow }
  else if kv.1 = "vals_nod_var".toList then
    match asA3 kv.2.data with
    | .error e => .error e
    | .ok t =>
      match t with
      | [] => .error .indexError
      | s0 :: _ => .ok { st with pd := s0 }
  else .ok st

/-- The variable scan of `read`, in container order. -/
def readVars (st : RState) : List (List Char × Var) → Except ExErr RState
  | [] => .ok st
  | kv :: rest =>
    match readStep st kv with
    | .error e => .error e
    | .ok st2 => readVars st2 rest

/-- `exodus_io.read`: pre-allocate an all-zero `num_nodes x 3` points
array, scan the variables, build the point_data dict from the
comprehension over the zip of the decoded names with the time-step-0
value rows (a repeated name keeps its first position and last value, as
a Python dict does), and return `(points, cells, point_data, {}, {})`. -/
def exRead (c : Container) : Except ExErr ReadResult :=
  match readVars
      { points := List.replicate c.numNodes (List.replicate 3 0)
      , cells := [], names := [], pd := [] } c.vars with
  | .error e => .error e
  | .ok st =>
    .ok { points := st.points
        , cells := st.cells
        , pointData := buildDict (st.names.zip st.pd)
        , cellData := []
        , fieldData := [] }

/-- Python `str.split(sep)` for a one-character separator. -/
def splitOnChar (c : Char) : List Char → List (List Char)
  | [] => [[]]
  | a :: l =>
    match splitOnChar c l with
    | [] => [[]]
    | g :: gs => if a = c then [] :: g :: gs else (a :: g) :: gs

/-- Concatenation of string pieces. -/
def joinParts (ps : List (List Char)) : List Char := ps.foldr (fun a b => a ++ b) []

/-- Errors of the dispatch layer, named as the specification names them. -/
inductive DispatchErr where
  | unknownFormat (e : List Char)
  | unsupportedFormat
  | malformedCellBlock
  | keyError
deriving DecidableEq

/-- `_extension_to_filetype` from `meshio/helpers.py`. -/
def extension_to_filetype : List (List Char × String) :=
  [ (".e".toList, "exodus")
  , (".ex2".toList, "exodus")
  , (".exo".toList, "exodus")
  , (".med".toList, "med")
  , (".mesh".toList, "medit")
  , (".msh".toList, "gmsh-binary")
  , (".xml".toList, "dolfin-xml")
  , (".post".toList, "permas")
  , (".post.gz".toList, "permas")
  , (".dato".toList, "permas")
  , (".dato.gz".toList, "permas")
  , (".h5m".toList, "moab")
  , (".off".toList, "off")
  , (".stl".toList, "stl-binary")
  , (".vtu".toList, "vtu-binary")
  , (".vtk".toList, "vtk-binary")
  , (".xdmf".toList, "xdmf")
  , (".xmf".toList, "xdmf")
  , (".inp".toList, "abaqus") ]

/-- The suffix loop of `_filetype_from_filename`: walk the dotted suffixes
from the last one backwards, growing the candidate extension by prepending,
and remember the table entry of the last (i.e. longest) candidate found.
Returns the final remembered format and the fully grown extension. -/
def resolveLoop : List (List Char) → List (List Char) → Option String →
    Option String × List (List Char)
  | [], eParts, out => (out, eParts)
  | s :: rest, eParts, out =>
    match alookup (joinParts (s :: eParts)) extension_to_filetype with
    | some v => resolveLoop rest (s :: eParts) (some v)
    | none => resolveLoop rest (s :: eParts) out

/-- The dotted suffix pieces of a filename:
`[".{}".format(ext) for ext in filename.split(".")[1:]]`. -/
def dotSuffixes (filename : String) : List (List Char) :=
  ((splitOnChar ('.') filename.toList).drop 1).map (fun e => '.' :: e)

/-- `_filetype_from_filename` from `meshio/helpers.py`: split off the dotted
suffixes, run the suffix loop, and fail naming the attempted extension when
no suffix matched. -/
def filetype_from_filename (filename : String) : Except DispatchErr String :=
  match resolveLoop (dotSuffixes filename).reverse [] none with
  | (some out, _) => .ok out
  | (none, e) => .error (.unknownFormat (joinParts e))

/-- The nonempty tails of a list, longest first. -/
def tailsNE {α : Type} : List α → List (List α)
  | [] => []
  | a :: l => (a :: l) :: tailsNE l

/-- First hit of an option-valued function along a list. -/
def firstSome {α β : Type} (f : α → Option β) : List α → Option β
  | [] => none
  | a :: l =>
    match f a with
    | some v => some v
    | none => firstSome f l

/-- The specification's reading of format resolution: greedy longest-suffix
match, trying the most specific compound suffix first and taking the first
hit; failure names the attempted (full) extension. -/
def filetypeSpec (filename : String) : Except DispatchErr String :=
  match firstSome (fun t => alookup (joinParts t) extension_to_filetype)
      (tailsNE (dotSuffixes filename)) with
  | some v => .ok v
  | none => .error (.unknownFormat (joinParts (dotSuffixes filename)))

/-- Modelled from the spec: `gmsh_io.num_nodes_per_cell`, the registry of
fixed per-element node counts which `helpers.write` consults, is not among
the provided source files (only its caller is).  The arities follow the
specification's description of the registry ("row width (nodes per element)
must equal the registry's fixed arity for that type", e.g. a `hexahedron`
block has 8 nodes per row). -/
def num_nodes_per_cell : List (List Char × Nat) :=
  [ ("vertex".toList, 1)
  , ("line".toList, 2)
  , ("line3".toList, 3)
  , ("triangle".toList, 3)
  , ("triangle6".toList, 6)
  , ("triangle7".toList, 7)
  , ("quad".toList, 4)
  , ("quad5".toList, 5)
  , ("quad8".toList, 8)
  , ("quad9".toList, 9)
  , ("tetra".toList, 4)
  , ("tetra4".toList, 4)
  , ("tetra8".toList, 8)
  , ("tetra10".toList, 10)
  , ("tetra14".toList, 14)
  , ("hexahedron".toList, 8)
  , ("hexahedron9".toList, 9)
  , ("hexahedron20".toList, 20)
  , ("hexahedron27".toList, 27)
  , ("pyramid".toList, 5)
  , ("wedge".toList, 6) ]

/-- The pre-write sanity loop of `helpers.write`:
`assert value.shape[1] == gmsh_io.num_nodes_per_cell[key]` for every cell
block, in order.  A key missing from the registry is a lookup error; a
width mismatch is the `MalformedCellBlock` failure of the specification. -/
def checkCells : List (List Char × NArr (List (List Int))) → Except DispatchErr Unit
  | [] => .ok ()
  | p :: ps =>
    match alookup p.1 num_nodes_per_cell with
    | none => .error .keyError
    | some a => if shape1 p.2.data = a then checkCells ps else .error .malformedCellBlock

/-- The format -> codec if/elif chain of `helpers.write`, reduced to the
name of the codec module that would be invoked (the final `else` branch
asserts the format is `exodus` and fails otherwise). -/
def dispatchTag (fmt : String) : Except DispatchErr String :=
  if fmt = "moab" then .ok ("h5m")
  else if fmt = "ansys-ascii" ∨ fmt = "ansys-binary" then .ok ("ansys")
  else if fmt = "gmsh-ascii" ∨ fmt = "gmsh-binary" then .ok ("gmsh")
  else if fmt = "med" then .ok ("med")
  else if fmt = "medit" then .ok ("medit")
  else if fmt = "dolfin-xml" then .ok ("dolfin")
  else if fmt = "off" then .ok ("off")
  else if fmt = "permas" then .ok ("permas")
  else if fmt = "stl-ascii" ∨ fmt = "stl-binary" then .ok ("stl")
  else if fmt = "vtu-ascii" then .ok ("vtu")
  else if fmt = "vtu" ∨ fmt = "vtu-binary" then .ok ("vtu")
  else if fmt = "vtk-ascii" then .ok ("vtk")
  else if fmt = "vtk" ∨ fmt = "vtk-binary" then .ok ("vtk")
  else if fmt = "xdmf" ∨ fmt = "xdmf3" then .ok ("xdmf")
  else if fmt = "abaqus" then .ok ("abaqus")
  else if fmt = "exodus" then .ok ("exodus")
  else .error .unsupportedFormat

/-- `helpers.write` up to (and including) codec selection: resolve the
format when none is supplied (Python treats the empty string as unsupplied),
run the cell sanity loop, then select the codec.  A successful result names
the codec that would be invoked; every failure happens before any codec is
invoked and before any storage is touched. -/
def helpersWrite (filename : String) (fileFormat : Option String) (m : ExMesh) :
    Except DispatchErr String :=
  let fmtE :=
    match fileFormat with
    | none => filetype_from_filename filename
    | some f => if f = "" then filetype_from_filename filename else .ok f
  match fmtE with
  | .error e => .error e
  | .ok fmt =>
    match checkCells m.cells with
    | .error e => .error e
    | .ok _ => dispatchTag fmt

/-- First-of-two option choice. -/
def ofirst {α : Type} : Option α → Option α → Option α
  | some v, _ => some v
  | none, b => b

/-- The candidate extensions visited by the suffix loop, longest first. -/
def revCands : List (List Char) → List (List Char) → List (List (List Char))
  | [], _ => []
  | a :: l, e => revCands l (a :: e) ++ [a :: e]

instance {ε α : Type} [DecidableEq ε] [DecidableEq α] : DecidableEq (Except ε α) :=
  fun x y =>
    match x, y with
    | .ok a, .ok b => decidable_of_iff (a = b) (by simp)
    | .error e, .error f => decidable_of_iff (e = f) (by simp)
    | .ok _, .error _ => isFalse (by simp)
    | .error _, .ok _ => isFalse (by simp)

/-- The one-point, one-field mesh family used to probe field-name handling:
a single point, no cells, and one point-data field with the given name. -/
def nameMesh (nm : List Char) : ExMesh :=
  { points := { dtype := "float64".toList, data := [[0, 0, 0]] }
  , cells := []
  , pointData := { entries := [(nm, { dtype := "float64".toList, data := [7] })]
                 , nodupKeys := by simp } }

/-- Write-then-read, projected onto the list of point-data field names the
reader reconstructs. -/
def roundtripNames (m : ExMesh) : Except ExErr (List (List Char)) :=
  match exWrite m with
  | .error e => .error e
  | .ok c =>
    match exRead c with
    | .error e => .error e
    | .ok r => .ok (r.pointData.map (fun p => p.1))

/-- A small concrete mesh (three points, one triangle, one point-data
field) used as the round-trip witness. -/
def c1wMesh : ExMesh :=
  { points := { dtype := "float64".toList, data := [[0, 0, 0], [1, 0, 0], [2, 0, 0]] }
  , cells := [ ("triangle".toList, { dtype := "int64".toList, data := [[0, 1, 2]] }) ]
  , pointData := { entries := [ ("temp".toList,
                                 { dtype := "float64".toList, data := [5, 6, 7] }) ]
                 , nodupKeys := by simp } }

/-- The container `exWrite` produces for `c1wMesh`. -/
def c1wCont : Container :=
  { numNodes := 3
  , vars := [ ("time_whole".toList, { elemType := none, data := .a1 [0] })
            , ("coor_names".toList, { elemType := none, data := .s2 coorNamesRows })
            , ("coord".toList,
               { elemType := none, data := .a2 [[0, 1, 2], [0, 0, 0], [0, 0, 0]] })
            , ("eb_prop1".toList, { elemType := none, data := .a1 [0] })
            , ("connect1".toList,
               { elemType := some ("TRI3".toList), data := .a2 [[1, 2, 3]] })
            , ("name_nod_var".toList,
               { elemType := none
               , data := .s2 ["temp".toList.map some ++ List.replicate 29 none] })
            , ("vals_nod_var".toList, { elemType := none, data := .a3 [[[5, 6, 7]]] }) ] }

/-- Name test for generated cell-block variables. -/
def isConnectVar (kv : List Char × Var) : Bool := kv.1.take 7 == "connect".toList

/-- Name test for generated node-set variables. -/
def isNodeNsVar (kv : List Char × Var) : Bool := kv.1.take 7 == "node_ns".toList

/-- Name test for generated side-set element-column variables. -/
def isElemSsVar (kv : List Char × Var) : Bool := kv.1.take 7 == "elem_ss".toList

/-- Name test for generated side-set side-column variables. -/
def isSideSsVar (kv : List Char × Var) : Bool := kv.1.take 7 == "side_ss".toList

/-- A concrete mesh with a cell block, a node set and a side set, used as
the 1-based-conversion witness. -/
def c2wMesh : ExMesh :=
  { points := { dtype := "float64".toList, data := [[0, 0, 0]] }
  , cells := [ ("triangle".toList, { dtype := "int64".toList, data := [[0, 0, 0]] }) ]
  , pointData := { entries := [], nodupKeys := by simp }
  , nsets := [ ("left".toList, { dtype := "int64".toList, data := [0] }) ]
  , ssets := [ ("top".toList, { dtype := "int64".toList, data := [(0, 3)] }) ] }

/-- The container `exWrite` produces for `c2wMesh`. -/
def c2wCont : Container :=
  { numNodes := 1
  , vars := [ ("time_whole".toList, { elemType := none, data := .a1 [0] })
            , ("coor_names".toList, { elemType := none, data := .s2 coorNamesRows })
            , ("coord".toList, { elemType := none, data := .a2 [[0], [0], [0]] })
            , ("eb_prop1".toList, { elemType := none, data := .a1 [0] })
            , ("connect1".toList,
               { elemType := some ("TRI3".toList), data := .a2 [[1, 1, 1]] })
            , ("ns_prop1".toList, { elemType := none, data := .a1 [0] })
            , ("ns_names".toList,
               { elemType := none
               , data := .s2 ["left".toList.map some ++ List.replicate 29 none] })
            , ("node_ns1".toList, { elemType := none, data := .a1 [1] })
            , ("ss_prop1".toList, { elemType := none, data := .a1 [0] })
            , ("ss_names".toList,
               { elemType := none
               , data := .s2 ["top".toList.map some ++ List.replicate 30 none] })
            , ("elem_ss1".toList, { elemType := none, data := .a1 [1] })
            , ("side_ss1".toList, { elemType := none, data := .a1 [3] }) ] }

theorem alookup_mem {β : Type} {k : List Char} {v : β} :
    ∀ {d : List (List Char × β)}, alookup k d = some v → (k, v) ∈ d := by
  intro d
  induction d with
  | nil => intro h; simp [alookup] at h
  | cons p ps ih =>
    intro h
    by_cases hk : p.1 = k
    · simp [alookup, hk] at h
      subst hk; subst h
      exact List.mem_cons_self _ _
    · simp [alookup, hk] at h
      exact List.mem_cons_of_mem _ (ih h)

/-- Taking the length of the left part of an append returns that part;
stated for the 7-character variable-name stems the codec compares against. -/
theorem take_stem_append (p s : List Char) (h : p.length = 7) :
    (p ++ s).take 7 = p := by
  rw [← h]
  exact List.take_left p s

/-- The generated `connect<k>` names all start with the stem `connect`. -/
theorem connectName_take7 (k : Nat) :
    (connectName k).take 7 = "connect".toList :=
  take_stem_append _ _ (by decide)

/-- The generated `node_ns<k>` names all start with the stem `node_ns`. -/
theorem nodeNsName_take7 (k : Nat) :
    (nodeNsName k).take 7 = "node_ns".toList :=
  take_stem_append _ _ (by decide)

/-- The generated `elem_ss<k>` names all start with the stem `elem_ss`. -/
theorem elemSsName_take7 (k : Nat) :
    (elemSsName k).take 7 = "elem_ss".toList :=
  take_stem_append _ _ (by decide)

/-- The generated `side_ss<k>` names all start with the stem `side_ss`. -/
theorem sideSsName_take7 (k : Nat) :
    (sideSsName k).take 7 = "side_ss".toList :=
  take_stem_append _ _ (by decide)

/-- C6: for every canonical tag in the reverse registry, mapping it to disk
and back to canonical returns the same canonical tag; and every registered
disk tag maps to a canonical tag whose disk image is itself a registered
alias of that same canonical tag (not necessarily the original disk tag,
the reverse table keeping only the last-registered alias per canonical
type). -/
theorem c6_registry_roundtrip :
    (∀ p ∈ meshio_to_exodus_type, alookup p.2 exodus_to_meshio_type = some p.1) ∧
    (∀ q ∈ exodus_to_meshio_type,
      alookup q.1 exodus_to_meshio_type = some q.2 ∧
      ∃ a, alookup q.2 meshio_to_exodus_type = some a ∧
        alookup a exodus_to_meshio_type = some q.2) := by
  decide

/-- Witness for C6 at the canonical tag `line`, whose surviving disk alias
is the last-registered one, `BAR2`. -/
theorem c6_registry_roundtrip_witness :
    alookup ("BAR2".toList) exodus_to_meshio_type = some ("line".toList) :=
  c6_registry_roundtrip.1 (("line".toList, "BAR2".toList)) (by decide)

theorem ofirst_assoc {α : Type} (a b c : Option α) :
    ofirst (ofirst a b) c = ofirst a (ofirst b c) := by
  cases a <;> cases b <;> rfl

theorem ofirst_some {α : Type} (v : α) (b : Option α) :
    ofirst (some v) b = some v := rfl

theorem ofirst_none_right {α : Type} (a : Option α) : ofirst a none = a := by
  cases a <;> rfl

theorem firstSome_append {α β : Type} (f : α → Option β) (xs ys : List α) :
    firstSome f (xs ++ ys) = ofirst (firstSome f xs) (firstSome f ys) := by
  induction xs with
  | nil => rfl
  | cons a l ih =>
    simp only [List.cons_append, firstSome]
    cases f a <;> simp [ofirst, ih]

theorem firstSome_singleton {α β : Type} (f : α → Option β) (x : α) :
    firstSome f [x] = f x := by
  simp only [firstSome]
  cases f x <;> rfl

/-- The suffix loop keeps the table entry of the longest candidate that
matched: it equals the first hit over the candidates enumerated longest
first, with the incoming accumulator as fallback, and its final extension
is the concatenation of everything it visited. -/
theorem resolveLoop_spec (l : List (List Char)) :
    ∀ (e : List (List Char)) (out : Option String),
      resolveLoop l e out =
        (ofirst (firstSome (fun t => alookup (joinParts t) extension_to_filetype)
                  (revCands l e)) out,
         l.reverse ++ e) := by
  induction l with
  | nil => intro e out; rfl
  | cons a l ih =>
    intro e out
    cases h : alookup (joinParts (a :: e)) extension_to_filetype with
    | some v =>
      simp only [resolveLoop, h, revCands, firstSome_append, firstSome_singleton,
        ih (a :: e) (some v), ofirst_assoc, ofirst_some]
      simp
    | none =>
      simp only [resolveLoop, h, revCands, firstSome_append, firstSome_singleton,
        ih (a :: e) out, ofirst_assoc]
      simp [ofirst]

theorem tailsNE_append_singleton {α : Type} (m : List α) (a : α) :
    tailsNE (m ++ [a]) = (tailsNE m).map (fun t => t ++ [a]) ++ [[a]] := by
  induction m with
  | nil => rfl
  | cons b m ih => simp [tailsNE, ih]

/-- The candidates the loop visits are exactly the nonempty tails of the
suffix list (restored to source order), longest first, each extended by the
incoming accumulator. -/
theorem revCands_eq_tails (l : List (List Char)) :
    ∀ e : List (List Char),
      revCands l e = (tailsNE l.reverse).map (fun t => t ++ e) := by
  induction l with
  | nil => intro e; rfl
  | cons a l ih =>
    intro e
    simp only [revCands, List.reverse_cons, tailsNE_append_singleton, ih (a :: e)]
    simp [List.map_map, Function.comp_def]

/-- C4: with no explicit format, the dispatcher derives the format by
greedy longest-suffix match against the fixed extension table, trying the
most specific compound suffix first (the loop that grows the suffix
shortest-first and overwrites on every hit computes exactly that); in
particular `mesh.post.gz` resolves to permas, `mesh.xdmf` to xdmf, and
`mesh.unknown` fails naming the attempted extension. -/
theorem c4_extension_resolution :
    (∀ f : String, filetype_from_filename f = filetypeSpec f) ∧
    filetype_from_filename ("mesh.post.gz") = .ok ("permas") ∧
    filetype_from_filename ("mesh.xdmf") = .ok ("xdmf") ∧
    filetype_from_filename ("mesh.unknown") = .error (.unknownFormat (".unknown".toList)) := by
  refine ⟨?_, rfl, rfl, rfl⟩
  intro f
  unfold filetype_from_filename filetypeSpec
  rw [resolveLoop_spec, revCands_eq_tails, List.reverse_reverse]
  simp only [List.append_nil, List.map_id', List.map_id, ofirst_none_right]
  cases h : firstSome (fun t => alookup (joinParts t) extension_to_filetype)
      (tailsNE (dotSuffixes f)) <;> rfl

/-- A scan step on a generated `connect<k>` variable: classify by the
7-character stem, translate the `elem_type` attribute through the registry,
decrement, and stack onto the bucket of the canonical type. -/
theorem readStep_connect (st : RState) (k : Nat) (e t' : List Char)
    (rows : List (List Int))
    (h : alookup (e.map Char.toUpper) exodus_to_meshio_type = some t') :
    readStep st (connectName k, { elemType := some e, data := .a2 rows })
      = .ok { st with cells :=
                stackInsert st.cells t' (rows.map (fun r => r.map (fun x => x - 1))) } := by
  unfold readStep
  rw [if_pos (connectName_take7 k)]
  dsimp only
  rw [h]
  rfl

/-- C3: a container holding two connect blocks whose element types map to
the same canonical type reads back as a single cells entry for that type,
first block's rows first, with row count the sum of the two row counts. -/
theorem c3_same_type_blocks_stack (n : Nat) (e1 e2 t : List Char)
    (r1 r2 : List (List Int))
    (h1 : alookup (e1.map Char.toUpper) exodus_to_meshio_type = some t)
    (h2 : alookup (e2.map Char.toUpper) exodus_to_meshio_type = some t) :
    exRead { numNodes := n
           , vars := [ (connectName 0, { elemType := some e1, data := .a2 r1 })
                     , (connectName 1, { elemType := some e2, data := .a2 r2 }) ] }
      = .ok { points := List.replicate n (List.replicate 3 0)
            , cells := [(t, r1.map (fun r => r.map (fun x => x - 1))
                             ++ r2.map (fun r => r.map (fun x => x - 1)))]
            , pointData := [], cellData := [], fieldData := [] } ∧
    (r1.map (fun r : List Int => r.map (fun x => x - 1))
      ++ r2.map (fun r : List Int => r.map (fun x => x - 1))).length
      = r1.length + r2.length := by
  refine ⟨?_, by simp⟩
  unfold exRead
  simp only [readVars, readStep_connect _ 0 e1 t r1 h1, stackInsert]
  simp only [readStep_connect _ 1 e2 t r2 h2, stackInsert]
  simp [buildDict]

/-- Witness for C3: two `HEX`-family blocks (disk tags `HEX` and `hex8`,
both canonical `hexahedron`) stack into one block of 2 rows. -/
theorem c3_same_type_blocks_stack_witness :
    exRead { numNodes := 0
           , vars := [ (connectName 0,
                        { elemType := some ("HEX".toList), data := .a2 [[1, 2, 3, 4, 5, 6, 7, 8]] })
                     , (connectName 1,
                        { elemType := some ("hex8".toList), data := .a2 [[9, 10, 11, 12, 13, 14, 15, 16]] }) ] }
      = .ok { points := []
            , cells := [("hexahedron".toList,
                         [[0, 1, 2, 3, 4, 5, 6, 7], [8, 9, 10, 11, 12, 13, 14, 15]])]
            , pointData := [], cellData := [], fieldData := [] } := by
  rw [(c3_same_type_blocks_stack 0 ("HEX".toList) ("hex8".toList)
    ("hexahedron".toList) [[1, 2, 3, 4, 5, 6, 7, 8]] [[9, 10, 11, 12, 13, 14, 15, 16]]
    (by decide) (by decide)).1]
  decide

/-- C7: a container whose `vals_nod_var` holds three time steps reads back
point data built from exactly time-step index 0 — the dict comprehension
over the names zipped with the step-0 rows; the second and third steps
(universally quantified here) never influence the result. -/
theorem c7_first_time_step_only (n : Nat) (g : List (List (Option Char)))
    (t1 t2 t3 : List (List Int)) :
    exRead { numNodes := n
           , vars := [ ("name_nod_var".toList, { data := .s2 g })
                     , ("vals_nod_var".toList, { data := .a3 [t1, t2, t3] }) ] }
      = .ok { points := List.replicate n (List.replicate 3 0)
            , cells := []
            , pointData := buildDict ((g.map decodeRow).zip t1)
            , cellData := [], fieldData := [] } := rfl

/-- Inserting a key a dict does not yet hold appends a fresh entry. -/
theorem dictInsert_fresh {β : Type} :
    ∀ (d : List (List Char × β)) (k : List Char) (v : β),
      k ∉ d.map (fun q => q.1) → dictInsert d k v = d ++ [(k, v)] := by
  intro d
  induction d with
  | nil => intro k v _; rfl
  | cons p ps ih =>
    intro k v hmem
    have hne : ¬ p.1 = k := fun hc =>
      hmem (by rw [List.map_cons, hc]; exact List.mem_cons_self _ _)
    have htail : k ∉ List.map (fun q => q.1) ps := fun hc =>
      hmem (by rw [List.map_cons]; exact List.mem_cons_of_mem _ hc)
    unfold dictInsert
    rw [if_neg hne, ih k v htail]
    rfl

/-- A dict built from pairs with pairwise-distinct keys is those pairs. -/
theorem buildDict_nodup {β : Type} :
    ∀ l : List (List Char × β), (l.map (fun q => q.1)).Nodup → buildDict l = l := by
  have key : ∀ (l acc : List (List Char × β)),
      (∀ q ∈ l, q.1 ∉ acc.map (fun q => q.1)) → (l.map (fun q => q.1)).Nodup →
      l.foldl (fun d q => dictInsert d q.1 q.2) acc = acc ++ l := by
    intro l
    induction l with
    | nil =>
      intro acc _ _
      rw [List.foldl_nil, List.append_nil]
    | cons q qs ih =>
      intro acc hfresh hnodup
      rw [List.foldl_cons, dictInsert_fresh acc q.1 q.2
        (hfresh q (List.mem_cons_self q qs))]
      rw [ih (acc ++ [(q.1, q.2)]) ?fr ((List.nodup_cons.mp hnodup).2)]
      case fr =>
        intro r hr
        simp only [List.map_append, List.map_cons, List.map_nil]
        intro hmem
        rcases List.mem_append.mp hmem with hin | hin
        · exact hfresh r (List.mem_cons_of_mem q hr) hin
        · have hrq := List.mem_singleton.mp hin
          have hr1 : r.1 ∈ qs.map (fun z => z.1) := List.mem_map_of_mem _ hr
          rw [hrq] at hr1
          exact (List.nodup_cons.mp hnodup).1 hr1
      simp [List.append_assoc]
  intro l hn
  have := key l [] (by intro q _ hq; exact absurd hq (List.not_mem_nil _)) hn
  rw [buildDict, this, List.nil_append]

/-- Zipping a duplicate-free list of keys with anything keeps the keys
duplicate-free. -/
theorem nodup_zip_keys {β : Type} :
    ∀ (l1 : List (List Char)) (l2 : List β),
      l1.Nodup → ((l1.zip l2).map (fun q => q.1)).Nodup := by
  intro l1
  induction l1 with
  | nil => intro l2 _; simp
  | cons a l ih =>
    intro l2 hnd
    cases l2 with
    | nil => simp
    | cons b l2 =>
      rw [List.zip_cons_cons, List.map_cons, List.nodup_cons]
      refine ⟨?_, ih l2 (List.nodup_cons.mp hnd).2⟩
      intro hmem
      rcases List.mem_map.mp hmem with ⟨q, hq, hq1⟩
      have ha : q.1 ∈ l := (List.of_mem_zip hq).1
      rw [hq1] at ha
      exact (List.nodup_cons.mp hnd).1 ha

/-- C10 counterexample: the claim asserts the read returns exactly
min(number of names, number of step-0 value rows) entries, but the dict
comprehension collapses repeated decoded names.  With names a, a, b and
two step-0 value rows the program returns the single entry a mapped to the
second row — 1 entry, not min(3, 2) = 2. -/
theorem c10_min_entries_counterexample :
    exRead { numNodes := 0
           , vars := [ ("name_nod_var".toList,
                        { elemType := none
                        , data := .s2 [[some 'a'], [some 'a'], [some 'b']] })
                     , ("vals_nod_var".toList,
                        { elemType := none, data := .a3 [[[1], [2]]] }) ] }
      = .ok { points := [], cells := []
            , pointData := [(['a'], [2])], cellData := [], fieldData := [] } ∧
    ¬ ((1 : Nat) = min 3 2) := by
  exact ⟨rfl, by decide⟩

/-- C10 amended: when `name_nod_var` and `vals_nod_var` disagree, the read
never fails on that account: with only names present the point data is
empty, with only values present it is empty, and with both present the
point data is the dict built from zipping the decoded names positionally
with the time-step-0 rows (a repeated name keeps its first position and
last row); when the decoded names are pairwise distinct this has exactly
min(number of names, number of value rows) entries. -/
theorem c10_dict_of_zip (n : Nat) :
    (∀ g : List (List (Option Char)),
      exRead { numNodes := n, vars := [("name_nod_var".toList, { data := .s2 g })] }
        = .ok { points := List.replicate n (List.replicate 3 0), cells := []
              , pointData := [], cellData := [], fieldData := [] }) ∧
    (∀ (t0 : List (List Int)) (ts : List (List (List Int))),
      exRead { numNodes := n, vars := [("vals_nod_var".toList, { data := .a3 (t0 :: ts) })] }
        = .ok { points := List.replicate n (List.replicate 3 0), cells := []
              , pointData := [], cellData := [], fieldData := [] }) ∧
    (∀ (g : List (List (Option Char))) (t0 : List (List Int))
       (ts : List (List (List Int))),
      exRead { numNodes := n
             , vars := [ ("name_nod_var".toList, { data := .s2 g })
                       , ("vals_nod_var".toList, { data := .a3 (t0 :: ts) }) ] }
        = .ok { points := List.replicate n (List.replicate 3 0), cells := []
              , pointData := buildDict ((g.map decodeRow).zip t0)
              , cellData := [], fieldData := [] } ∧
      ((g.map decodeRow).Nodup →
        (buildDict ((g.map decodeRow).zip t0)).length = min g.length t0.length)) := by
  refine ⟨fun g => ?_, fun t0 ts => rfl, fun g t0 ts => ⟨rfl, fun hnd => ?_⟩⟩
  · calc exRead { numNodes := n, vars := [("name_nod_var".toList, { data := .s2 g })] }
        = .ok { points := List.replicate n (List.replicate 3 0), cells := []
              , pointData := buildDict ((g.map decodeRow).zip ([] : List (List Int)))
              , cellData := [], fieldData := [] } := rfl
      _ = .ok { points := List.replicate n (List.replicate 3 0), cells := []
              , pointData := [], cellData := [], fieldData := [] } := by
          simp [buildDict]
  · rw [buildDict_nodup _ (nodup_zip_keys (g.map decodeRow) t0 hnd)]
    simp [List.length_zip]

/-- Witness for the amended C10: two distinct names against one value row
give exactly min(2, 1) = 1 entry. -/
theorem c10_dict_of_zip_witness :
    (buildDict ((([[some 'a'], [some 'b']].map decodeRow)).zip [[5]])).length
      = min ([[some 'a'], [some 'b']] : List (List (Option Char))).length
          ([[5]] : List (List Int)).length :=
  ((c10_dict_of_zip 0).2.2 [[some 'a'], [some 'b']] [[5]] []).2 (by decide)

/-- The variable scan of an appended variable list runs the second part
from the state the first part produced. -/
theorem readVars_append (l1 l2 : List (List Char × Var)) :
    ∀ st : RState,
      readVars st (l1 ++ l2)
        = match readVars st l1 with
          | .error e => .error e
          | .ok st2 => readVars st2 l2 := by
  induction l1 with
  | nil => intro st; rfl
  | cons kv l1 ih =>
    intro st
    simp only [List.cons_append, readVars]
    cases readStep st kv with
    | error e => rfl
    | ok st2 => exact ih st2

/-- A variable whose name matches none of the seven classifying tests of
the scan is ignored: the state passes through unchanged. -/
theorem readStep_ignored (st : RState) (nm : List Char) (v : Var)
    (h1 : ¬ nm.take 7 = "connect".toList)
    (h2 : ¬ nm = "coord".toList)
    (h3 : ¬ nm = "coordx".toList)
    (h4 : ¬ nm = "coordy".toList)
    (h5 : ¬ nm = "coordz".toList)
    (h6 : ¬ nm = "name_nod_var".toList)
    (h7 : ¬ nm = "vals_nod_var".toList) :
    readStep st (nm, v) = .ok st := by
  unfold readStep
  rw [if_neg h1, if_neg h2, if_neg h3, if_neg h4, if_neg h5, if_neg h6, if_neg h7]

/-- Node-set and side-set variable names (the generated prefixed names and
the fixed property/name variables) are all ignored by the scan. -/
theorem readStep_set_ignored (st : RState) (nm : List Char) (v : Var)
    (h : nm.take 7 = "node_ns".toList ∨ nm.take 7 = "elem_ss".toList ∨
         nm.take 7 = "side_ss".toList ∨ nm = "ns_prop1".toList ∨
         nm = "ns_names".toList ∨ nm = "ss_prop1".toList ∨ nm = "ss_names".toList) :
    readStep st (nm, v) = .ok st := by
  apply readStep_ignored st nm v <;>
  · intro hx
    rcases h with h | h | h | h | h | h | h <;>
      first
        | (subst hx; revert h; decide)
        | (subst h; revert hx; decide)
        | (rw [hx] at h; revert h; decide)

/-- C8: whenever the read succeeds its cell_data and field_data components
are empty, and node-set / side-set variables present in the container are
never reconstructed: appending any such variable leaves the result of the
read unchanged. -/
theorem c8_sets_not_read (c : Container) (r : ReadResult)
    (hok : exRead c = .ok r) :
    r.cellData = [] ∧ r.fieldData = [] ∧
    ∀ (nm : List Char) (v : Var),
      (nm.take 7 = "node_ns".toList ∨ nm.take 7 = "elem_ss".toList ∨
       nm.take 7 = "side_ss".toList ∨ nm = "ns_prop1".toList ∨
       nm = "ns_names".toList ∨ nm = "ss_prop1".toList ∨ nm = "ss_names".toList) →
      exRead { c with vars := c.vars ++ [(nm, v)] } = exRead c := by
  refine ⟨?_, ?_, ?_⟩
  · unfold exRead at hok
    cases hscan : readVars
        { points := List.replicate c.numNodes (List.replicate 3 0)
        , cells := [], names := [], pd := [] } c.vars with
    | error e => rw [hscan] at hok; exact absurd hok (by simp)
    | ok st => rw [hscan] at hok; simp at hok; rw [← hok]
  · unfold exRead at hok
    cases hscan : readVars
        { points := List.replicate c.numNodes (List.replicate 3 0)
        , cells := [], names := [], pd := [] } c.vars with
    | error e => rw [hscan] at hok; exact absurd hok (by simp)
    | ok st => rw [hscan] at hok; simp at hok; rw [← hok]
  · intro nm v h
    unfold exRead
    rw [readVars_append]
    cases hscan : readVars
        { points := List.replicate c.numNodes (List.replicate 3 0)
        , cells := [], names := [], pd := [] } c.vars with
    | error e => rfl
    | ok st => simp only [readVars, readStep_set_ignored st nm v h]

/-- Witness for C8 at a concrete container with a node-set variable. -/
theorem c8_sets_not_read_witness :
    ReadResult.cellData { points := [], cells := [], pointData := []
                        , cellData := [], fieldData := [] } = [] :=
  (c8_sets_not_read { numNodes := 0, vars := [] }
    { points := [], cells := [], pointData := [], cellData := [], fieldData := [] }
    rfl).1

theorem filterMap_id_replicate_none {α : Type} (k : Nat) :
    List.filterMap id (List.replicate k (none : Option α)) = [] := by
  induction k with
  | zero => rfl
  | succ q ih => simp [List.replicate_succ, ih]

/-- Decoding a fixed-width row that was filled by the per-character write
loop recovers the written name exactly: the padding cells contribute
nothing. -/
theorem decodeRow_encoded (nm : List Char) (k : Nat) :
    decodeRow (nm.map some ++ List.replicate k none) = nm := by
  induction nm with
  | nil => simp [decodeRow]
  | cons a l ih => simp [decodeRow] at ih ⊢

/-- Writing the one-field mesh with a name of at most 33 characters
succeeds and produces the expected container, the name stored in a
fixed-width row padded to 33 cells. -/
theorem exWrite_nameMesh (nm : List Char) (h : nm.length ≤ 33) :
    exWrite (nameMesh nm) = .ok
      { numNodes := 1
      , vars := [ ("time_whole".toList, { data := .a1 [0] })
                , ("coor_names".toList, { data := .s2 coorNamesRows })
                , ("coord".toList, { data := .a2 [[0], [0], [0]] })
                , ("eb_prop1".toList, { data := .a1 [] })
                , ("name_nod_var".toList,
                   { data := .s2 [nm.map some ++ List.replicate (33 - nm.length) none] })
                , ("vals_nod_var".toList, { data := .a3 [[[7]]] }) ] } := by
  have e1 : encodeRow33 nm = .ok (nm.map some ++ List.replicate (33 - nm.length) none) := by
    unfold encodeRow33
    rw [if_pos h]
  have hdt : alookup ['f', 'l', 'o', 'a', 't', '6', '4'] numpy_to_exodus_dtype
      = some ("f8".toList) := by decide
  have htr : tr [[0, 0, 0]] = [[0], [0], [0]] := by decide
  simp [exWrite, nameMesh, pointDataVars, encodeAll, connectVars, nsetSection,
    ssetSection, e1, hdt, htr]

/-- Writing the one-field mesh with a name longer than 33 characters fails
with the out-of-range index error: the per-character name loop runs past
the `len_string` dimension. -/
theorem exWrite_nameMesh_long (nm : List Char) (h : 33 < nm.length) :
    exWrite (nameMesh nm) = .error .indexError := by
  have e1 : encodeRow33 nm = .error .indexError := by
    unfold encodeRow33
    rw [if_neg (by omega)]
  have hdt : alookup ['f', 'l', 'o', 'a', 't', '6', '4'] numpy_to_exodus_dtype
      = some ("f8".toList) := by decide
  simp [exWrite, nameMesh, pointDataVars, encodeAll, connectVars, nsetSection,
    ssetSection, e1, hdt]

/-- C9 counterexample: a point-data field name of length exactly 33
(`len_string` itself, one more than the claimed boundary of 32) is NOT
truncated to 32 characters on write: it round-trips through write and read
unchanged, because `name_nod_var` has 33 character cells (indices 0..32)
and a 33-character name fills them exactly. -/
theorem c9_name_truncation_counterexample :
    roundtripNames (nameMesh (List.replicate 33 'a')) = .ok [List.replicate 33 'a'] ∧
    ¬ roundtripNames (nameMesh (List.replicate 33 'a'))
        = .ok [(List.replicate 33 'a').take 32] := by
  exact ⟨rfl, by decide⟩

/-- C9 amended: a field name of length 32 round-trips exactly (padding does
not corrupt it) — and so does a name of length 33, the true capacity of the
fixed-width row; only names longer than 33 fail, and they fail with an
index error on write rather than being silently truncated. -/
theorem c9_name_length_boundary (nm : List Char) :
    (nm.length ≤ 33 → roundtripNames (nameMesh nm) = .ok [nm]) ∧
    (33 < nm.length → exWrite (nameMesh nm) = .error .indexError) := by
  constructor
  · intro h
    unfold roundtripNames
    rw [exWrite_nameMesh nm h]
    show Except.ok [decodeRow (nm.map some ++ List.replicate (33 - nm.length) none)]
      = Except.ok [nm]
    rw [decodeRow_encoded]
  · exact exWrite_nameMesh_long nm

/-- Witness for the amended C9 at the boundary the claim names: the
32-character name round-trips exactly. -/
theorem c9_name_length_boundary_witness :
    roundtripNames (nameMesh (List.replicate 32 'a')) = .ok [List.replicate 32 'a'] :=
  (c9_name_length_boundary (List.replicate 32 'a')).1 (by decide)

/-- The sanity loop fails with the `MalformedCellBlock` failure whenever
every block's type is registered and some block's row width differs from
the registered arity. -/
theorem checkCells_mismatch :
    ∀ cs : List (List Char × NArr (List (List Int))),
      (∀ p ∈ cs, (alookup p.1 num_nodes_per_cell).isSome) →
      (∃ p ∈ cs, ¬ alookup p.1 num_nodes_per_cell = some (shape1 p.2.data)) →
      checkCells cs = .error .malformedCellBlock := by
  intro cs
  induction cs with
  | nil =>
    intro _ hex
    rcases hex with ⟨q, hq, _⟩
    exact absurd hq (List.not_mem_nil q)
  | cons p ps ih =>
    intro hall hex
    have hp := hall p (List.mem_cons_self p ps)
    cases ha : alookup p.1 num_nodes_per_cell with
    | none => rw [ha] at hp; simp at hp
    | some a =>
      unfold checkCells
      simp only [ha]
      by_cases hw : shape1 p.2.data = a
      · rw [if_pos hw]
        apply ih
        · intro q hq; exact hall q (List.mem_cons_of_mem p hq)
        · rcases hex with ⟨q, hq, hne⟩
          rcases List.mem_cons.mp hq with hqp | hqs
          · subst hqp; rw [ha, hw] at hne; simp at hne
          · exact ⟨q, hqs, hne⟩
      · rw [if_neg hw]

/-- C5: a mesh handed to the dispatcher's write with some cell block whose
row width differs from the registry arity (all block types being
registered) fails with `MalformedCellBlock`; the failure happens in the
pre-dispatch sanity loop, before any codec is selected or any storage is
created. -/
theorem c5_malformed_cell_block (m : ExMesh) (fn : String)
    (hreg : ∀ p ∈ m.cells, (alookup p.1 num_nodes_per_cell).isSome)
    (hbad : ∃ p ∈ m.cells, ¬ alookup p.1 num_nodes_per_cell = some (shape1 p.2.data)) :
    helpersWrite fn (some ("exodus")) m = .error .malformedCellBlock := by
  show (match checkCells m.cells with
        | Except.error e => (Except.error e : Except DispatchErr String)
        | Except.ok _ => dispatchTag ("exodus")) = .error .malformedCellBlock
  rw [checkCells_mismatch m.cells hreg hbad]

/-- Witness for C5: the specification's own example, a `hexahedron` block
(registered arity 8) whose rows have width 6. -/
theorem c5_malformed_cell_block_witness :
    helpersWrite ("out.e") (some ("exodus"))
      { points := { dtype := "float64".toList, data := [[0, 0, 0]] }
      , cells := [ ("hexahedron".toList,
                    { dtype := "int64".toList, data := [[0, 0, 0, 0, 0, 0]] }) ]
      , pointData := { entries := [], nodupKeys := by simp } }
      = .error .malformedCellBlock :=
  c5_malformed_cell_block _ _ (by decide) (by decide)

/-- Every entry of the reverse registry maps, after the reader's
upper-casing, straight back to its canonical type. -/
theorem registry_upper_inv : ∀ q ∈ meshio_to_exodus_type,
    alookup (q.2.map Char.toUpper) exodus_to_meshio_type = some q.1 := by
  decide

/-- Stacking into a bucket list that does not yet hold the type appends a
fresh bucket at the end. -/
theorem stackInsert_fresh :
    ∀ (cells : List (List Char × List (List Int))) (ty : List Char)
      (rows : List (List Int)),
      ty ∉ cells.map (fun q => q.1) →
      stackInsert cells ty rows = cells ++ [(ty, rows)] := by
  intro cells
  induction cells with
  | nil => intro ty rows _; rfl
  | cons p ps ih =>
    intro ty rows hmem
    have hne : ¬ p.1 = ty := fun hc =>
      hmem (by rw [List.map_cons, hc]; exact List.mem_cons_self _ _)
    have htail : ty ∉ List.map (fun q => q.1) ps := fun hc =>
      hmem (by rw [List.map_cons]; exact List.mem_cons_of_mem _ hc)
    unfold stackInsert
    rw [if_neg hne, ih ty rows htail]
    rfl

/-- Incrementing on write and decrementing on read cancel exactly. -/
theorem dec_inc (rows : List (List Int)) :
    (rows.map (fun r => r.map (fun x => x + 1))).map
      (fun r => r.map (fun x => x - 1)) = rows := by
  simp [List.map_map, Function.comp_def]

/-- A length-3 row is exactly its three fetched entries. -/
theorem row3_eq (r : List Int) (h : r.length = 3) :
    [r.getD 0 0, r.getD 1 0, r.getD 2 0] = r := by
  rcases List.length_eq_three.mp h with ⟨a, b, c, rfl⟩
  rfl

/-- Fetching entry i of column j of a matrix fetches entry j of row i. -/
theorem col_getD (m : List (List Int)) (i j : Nat) (hi : i < m.length) :
    (col m j).getD i 0 = (m.getD i []).getD j 0 := by
  have hlt : i < (m.map (fun q => q.getD j 0)).length := by simpa using hi
  show (m.map (fun q => q.getD j 0)).getD i 0 = (m.getD i []).getD j 0
  rw [List.getD_eq_getElem _ _ hlt, List.getElem_map,
    List.getD_eq_getElem _ _ hi]

/-- Transposing an N x 3 array twice gives it back. -/
theorem tr_tr (p : List (List Int)) (h : ∀ r ∈ p, r.length = 3) :
    tr (tr p) = p := by
  cases p with
  | nil => rfl
  | cons r rest =>
    have hr : r.length = 3 := h r (List.mem_cons_self r rest)
    show tr ((List.range r.length).map (col (r :: rest))) = r :: rest
    rw [hr]
    show (List.range (col (r :: rest) 0).length).map
        (col [col (r :: rest) 0, col (r :: rest) 1, col (r :: rest) 2]) = r :: rest
    have hlen : (col (r :: rest) 0).length = (r :: rest).length := by simp [col]
    rw [hlen]
    apply List.ext_getElem
    · simp
    · intro i h1 h2
      simp only [List.getElem_map, List.getElem_range]
      show [(col (r :: rest) 0).getD i 0, (col (r :: rest) 1).getD i 0,
            (col (r :: rest) 2).getD i 0] = (r :: rest)[i]
      rw [col_getD _ _ _ h2, col_getD _ _ _ h2, col_getD _ _ _ h2]
      rw [List.getD_eq_getElem _ _ h2]
      exact row3_eq _ (h _ (List.getElem_mem _))

/-- Inversion of a successful write: each section succeeded and the
container is the concatenation of the fixed head variables with the
section variable lists, with `num_nodes` the number of points. -/
theorem exWrite_ok_shape (m : ExMesh) (c : Container) (h : exWrite m = .ok c) :
    ∃ cvs pvs nvs svs,
      connectVars 0 m.cells = .ok cvs ∧
      pointDataVars m.pointData.entries m.points.data.length = .ok pvs ∧
      nsetSection m.nsets = .ok nvs ∧
      ssetSection m.ssets = .ok svs ∧
      m.points.data.all (fun r => r.length = 3) = true ∧
      c = { numNodes := m.points.data.length
          , vars := [ ("time_whole".toList, { data := .a1 [0] })
                    , ("coor_names".toList, { data := .s2 coorNamesRows })
                    , ("coord".toList, { data := .a2 (tr m.points.data) })
                    , ("eb_prop1".toList,
                       { data := .a1 ((List.range m.cells.length).map Int.ofNat) }) ]
                    ++ cvs ++ pvs ++ nvs ++ svs } := by
  unfold exWrite at h
  split at h
  · exact absurd h (by simp)
  · split at h
    · split at h
      · exact absurd h (by simp)
      · split at h
        · exact absurd h (by simp)
        · split at h
          · exact absurd h (by simp)
          · split at h
            · exact absurd h (by simp)
            · exact ⟨_, _, _, _, by assumption, by assumption, by assumption,
                by assumption, by assumption, (Except.ok.inj h).symm⟩
    · exact absurd h (by simp)

/-- Decoding the rows produced by the name-encoding loop recovers the
original list of names. -/
theorem encodeAll_decode :
    ∀ (names : List (List Char)) (rows : List (List (Option Char))),
      encodeAll names = .ok rows → rows.map decodeRow = names := by
  intro names
  induction names with
  | nil =>
    intro rows h
    rw [← Except.ok.inj h]
    rfl
  | cons n ns ih =>
    intro rows h
    unfold encodeAll at h
    cases heq : encodeRow33 n with
    | error e => simp [heq] at h
    | ok r =>
      simp only [heq] at h
      cases heq2 : encodeAll ns with
      | error e => simp [heq2] at h
      | ok rs =>
        simp only [heq2] at h
        rw [← Except.ok.inj h]
        unfold encodeRow33 at heq
        split at heq
        · rw [List.map_cons, ih rs heq2, ← Except.ok.inj heq, decodeRow_encoded]
        · simp at heq

/-- Inversion of the point-data section: either there is no point data and
no variables, or the names encoded successfully and the section is the
`name_nod_var` grid followed by the single-time-step `vals_nod_var`. -/
theorem pointDataVars_shape (pd : List (List Char × NArr (List Int))) (n : Nat)
    (pvs : List (List Char × Var)) (h : pointDataVars pd n = .ok pvs) :
    (pd = [] ∧ pvs = []) ∨
    (∃ rows, encodeAll (pd.map (fun p => p.1)) = .ok rows ∧
      pvs = [ ("name_nod_var".toList, { elemType := none, data := .s2 rows })
            , ("vals_nod_var".toList,
               { elemType := none, data := .a3 [pd.map (fun p => p.2.data)] }) ]) := by
  cases pd with
  | nil => exact Or.inl ⟨rfl, (Except.ok.inj h).symm⟩
  | cons q qs =>
    right
    unfold pointDataVars at h
    dsimp only at h
    cases heq : encodeAll ((q :: qs).map (fun p => p.1)) with
    | error e => simp only [heq] at h; exact absurd h (by simp)
    | ok rows =>
      simp only [heq] at h
      cases hdt : alookup q.2.dtype numpy_to_exodus_dtype with
      | none => simp only [hdt] at h; exact absurd h (by simp)
      | some d =>
        simp only [hdt] at h
        split at h
        · exact ⟨rows, rfl, (Except.ok.inj h).symm⟩
        · exact absurd h (by simp)

/-- A name-variable step of the scan stores the decoded rows. -/
theorem readStep_namevar (st : RState) (g : List (List (Option Char))) :
    readStep st ("name_nod_var".toList, { elemType := none, data := .s2 g })
      = .ok { st with names := g.map decodeRow } := rfl

/-- A value-variable step of the scan keeps only time step 0. -/
theorem readStep_valsvar (st : RState) (t0 : List (List Int))
    (ts : List (List (List Int))) :
    readStep st ("vals_nod_var".toList, { elemType := none, data := .a3 (t0 :: ts) })
      = .ok { st with pd := t0 } := rfl

/-- Scanning the variables generated by the cell-block loop of `write`
rebuilds exactly the original blocks (appended to whatever buckets the
state already holds), provided the canonical types are pairwise distinct
and fresh. -/
theorem readVars_connectVars :
    ∀ (cs : List (List Char × NArr (List (List Int)))) (k : Nat)
      (vs : List (List Char × Var)) (st : RState),
      connectVars k cs = .ok vs →
      (∀ p ∈ cs, p.1 ∉ st.cells.map (fun q => q.1)) →
      (cs.map (fun p => p.1)).Nodup →
      readVars st vs
        = .ok { st with cells := st.cells ++ cs.map (fun p => (p.1, p.2.data)) } := by
  intro cs
  induction cs with
  | nil =>
    intro k vs st h _ _
    rw [← Except.ok.inj h]
    show Except.ok st = _
    rw [List.map_nil, List.append_nil]
  | cons p ps ih =>
    intro k vs st h hfresh hnodup
    unfold connectVars at h
    cases hdt : alookup p.2.dtype numpy_to_exodus_dtype with
    | none => simp only [hdt] at h; exact absurd h (by simp)
    | some d =>
      simp only [hdt] at h
      cases heq : alookup p.1 meshio_to_exodus_type with
      | none => simp only [heq] at h; exact absurd h (by simp)
      | some et =>
        simp only [heq] at h
        cases heq2 : connectVars (k + 1) ps with
        | error e => simp only [heq2] at h; exact absurd h (by simp)
        | ok rest =>
          simp only [heq2] at h
          rw [← Except.ok.inj h]
          have hreg : alookup (et.map Char.toUpper) exodus_to_meshio_type = some p.1 :=
            registry_upper_inv (p.1, et) (alookup_mem heq)
          simp only [readVars, readStep_connect st k et p.1 _ hreg]
          rw [dec_inc, stackInsert_fresh st.cells p.1 p.2.data
            (hfresh p (List.mem_cons_self p ps))]
          rw [ih (k + 1) rest _ heq2 ?hfr ?hnd]
          case hfr =>
            intro q hq
            simp only [List.map_append, List.map_cons, List.map_nil]
            intro hmem
            rcases List.mem_append.mp hmem with hin | hin
            · exact hfresh q (List.mem_cons_of_mem p hq) hin
            · have hqp := List.mem_singleton.mp hin
              have hq1 : q.1 ∈ ps.map (fun z => z.1) := List.mem_map_of_mem _ hq
              rw [hqp] at hq1
              exact (List.nodup_cons.mp hnodup).1 hq1
          case hnd => exact (List.nodup_cons.mp hnodup).2
          simp [List.append_assoc]

/-- C1: for a mesh with no node sets and no side sets, one cell block per
canonical type (the cells mapping keys are distinct), in-range node
references, and a successful write (which requires registered element
types and supported dtypes), reading the written container returns exactly
the original points, cells and point data, with empty cell_data and
field_data. -/
theorem c1_exodus_roundtrip (m : ExMesh) (c : Container)
    (hns : m.nsets = []) (hss : m.ssets = [])
    (hone : (m.cells.map (fun p => p.1)).Nodup)
    (_hidx : ∀ p ∈ m.cells, ∀ row ∈ p.2.data, ∀ i ∈ row,
      0 ≤ i ∧ i < (m.points.data.length : Int))
    (hw : exWrite m = .ok c) :
    exRead c = .ok { points := m.points.data
                   , cells := m.cells.map (fun p => (p.1, p.2.data))
                   , pointData := m.pointData.entries.map (fun p => (p.1, p.2.data))
                   , cellData := [], fieldData := [] } := by
  obtain ⟨cvs, pvs, nvs, svs, hcv, hpv, hnv, hsv, hsh, hc⟩ := exWrite_ok_shape m c hw
  rw [hns] at hnv
  rw [hss] at hsv
  have hnv0 : nvs = [] := Except.ok.inj hnv.symm
  have hsv0 : svs = [] := Except.ok.inj hsv.symm
  subst hnv0
  subst hsv0
  subst hc
  have hall3 : ∀ r ∈ m.points.data, r.length = 3 := by
    intro r hr
    exact of_decide_eq_true (List.all_eq_true.mp hsh r hr)
  have s1 : ∀ st : RState,
      readStep st ("time_whole".toList, { elemType := none, data := VarData.a1 [0] })
        = .ok st := fun st => rfl
  have s2 : ∀ st : RState,
      readStep st ("coor_names".toList, { elemType := none, data := VarData.s2 coorNamesRows })
        = .ok st := fun st => rfl
  have s3 : ∀ st : RState,
      readStep st ("coord".toList, { elemType := none, data := VarData.a2 (tr m.points.data) })
        = .ok { st with points := tr (tr m.points.data) } := fun st => rfl
  have s4 : ∀ st : RState,
      readStep st ("eb_prop1".toList,
          { elemType := none, data := VarData.a1 ((List.range m.cells.length).map Int.ofNat) })
        = .ok st := fun st => rfl
  unfold exRead
  simp only [List.append_nil, List.nil_append]
  simp only [List.cons_append, List.nil_append, readVars, s1, s2, s3, s4]
  rw [tr_tr m.points.data hall3]
  simp only [List.append_eq, List.nil_append]
  rw [readVars_append]
  rw [readVars_connectVars m.cells 0 cvs _ hcv (by intro p hp; simp) hone]
  simp only [List.nil_append]
  rcases pointDataVars_shape m.pointData.entries m.points.data.length pvs hpv with
    ⟨hpd0, hpv0⟩ | ⟨rows, henc, hpv0⟩
  · subst hpv0
    simp [readVars, hpd0, buildDict]
  · subst hpv0
    simp only [readVars, readStep_namevar, readStep_valsvar]
    rw [encodeAll_decode _ _ henc]
    rw [List.zip_map']
    rw [buildDict_nodup _ ?nd]
    case nd =>
      have hk := m.pointData.nodupKeys
      simpa [List.map_map, Function.comp_def] using hk

/-- Witness for C1 at the concrete mesh. -/
theorem c1_exodus_roundtrip_witness :
    exRead c1wCont
      = .ok { points := c1wMesh.points.data
            , cells := c1wMesh.cells.map (fun p => (p.1, p.2.data))
            , pointData := c1wMesh.pointData.entries.map (fun p => (p.1, p.2.data))
            , cellData := [], fieldData := [] } :=
  c1_exodus_roundtrip c1wMesh c1wCont rfl rfl (by decide) (by decide) (by decide)

/-- The cell-block loop writes exactly one `connect` variable per block,
holding the 1-based rows, and no set variables. -/
theorem connectVars_filters :
    ∀ (cs : List (List Char × NArr (List (List Int)))) (k : Nat)
      (vs : List (List Char × Var)),
      connectVars k cs = .ok vs →
      vs.filter isConnectVar = vs ∧
      vs.map (fun kv => kv.2.data)
        = cs.map (fun p =>
            VarData.a2 (p.2.data.map (fun r => r.map (fun x => x + 1)))) ∧
      vs.filter isNodeNsVar = [] ∧ vs.filter isElemSsVar = [] ∧
      vs.filter isSideSsVar = [] := by
  intro cs
  induction cs with
  | nil =>
    intro k vs h
    rw [← Except.ok.inj h]
    exact ⟨rfl, rfl, rfl, rfl, rfl⟩
  | cons p ps ih =>
    intro k vs h
    unfold connectVars at h
    cases hdt : alookup p.2.dtype numpy_to_exodus_dtype with
    | none => simp only [hdt] at h; exact absurd h (by simp)
    | some d =>
      simp only [hdt] at h
      cases heq : alookup p.1 meshio_to_exodus_type with
      | none => simp only [heq] at h; exact absurd h (by simp)
      | some et =>
        simp only [heq] at h
        cases heq2 : connectVars (k + 1) ps with
        | error e => simp only [heq2] at h; exact absurd h (by simp)
        | ok rest =>
          simp only [heq2] at h
          rw [← Except.ok.inj h]
          obtain ⟨f1, f2, f3, f4, f5⟩ := ih (k + 1) rest heq2
          have hc1 : isConnectVar (connectName k,
              { elemType := some et
              , data := .a2 (p.2.data.map (fun r => r.map (fun x => x + 1))) }) = true := by
            unfold isConnectVar
            rw [connectName_take7]
            exact beq_self_eq_true _
          have hc2 : isNodeNsVar (connectName k,
              { elemType := some et
              , data := .a2 (p.2.data.map (fun r => r.map (fun x => x + 1))) }) = false := by
            unfold isNodeNsVar
            rw [connectName_take7]
            decide
          have hc3 : isElemSsVar (connectName k,
              { elemType := some et
              , data := .a2 (p.2.data.map (fun r => r.map (fun x => x + 1))) }) = false := by
            unfold isElemSsVar
            rw [connectName_take7]
            decide
          have hc4 : isSideSsVar (connectName k,
              { elemType := some et
              , data := .a2 (p.2.data.map (fun r => r.map (fun x => x + 1))) }) = false := by
            unfold isSideSsVar
            rw [connectName_take7]
            decide
          refine ⟨?_, ?_, ?_, ?_, ?_⟩
          · rw [List.filter_cons, if_pos hc1, f1]
          · simp [f2]
          · rw [List.filter_cons, if_neg (by simp [hc2]), f3]
          · rw [List.filter_cons, if_neg (by simp [hc3]), f4]
          · rw [List.filter_cons, if_neg (by simp [hc4]), f5]

/-- The node-set loop writes exactly one `node_ns` variable per set,
holding the 1-based node indices. -/
theorem nsetVars_filters :
    ∀ (ns : List (List Char × NArr (List Int))) (k : Nat)
      (vs : List (List Char × Var)),
      nsetVars k ns = .ok vs →
      (vs.filter isNodeNsVar).map (fun kv => kv.2.data)
        = ns.map (fun p => VarData.a1 (p.2.data.map (fun x => x + 1))) ∧
      vs.filter isConnectVar = [] ∧ vs.filter isElemSsVar = [] ∧
      vs.filter isSideSsVar = [] := by
  intro ns
  induction ns with
  | nil =>
    intro k vs h
    rw [← Except.ok.inj h]
    exact ⟨rfl, rfl, rfl, rfl⟩
  | cons p ps ih =>
    intro k vs h
    unfold nsetVars at h
    cases hdt : alookup p.2.dtype numpy_to_exodus_dtype with
    | none => simp only [hdt] at h; exact absurd h (by simp)
    | some d =>
      simp only [hdt] at h
      cases heq2 : nsetVars (k + 1) ps with
      | error e => simp only [heq2] at h; exact absurd h (by simp)
      | ok rest =>
        simp only [heq2] at h
        rw [← Except.ok.inj h]
        obtain ⟨f1, f2, f3, f4⟩ := ih (k + 1) rest heq2
        have hc1 : isNodeNsVar (nodeNsName k,
            { elemType := none, data := .a1 (p.2.data.map (fun x => x + 1)) }) = true := by
          unfold isNodeNsVar
          rw [nodeNsName_take7]
          exact beq_self_eq_true _
        refine ⟨?_, ?_, ?_, ?_⟩
        · rw [List.filter_cons, if_pos hc1]
          simp [f1]
        · rw [List.filter_cons, if_neg ?_, f2]
          unfold isConnectVar
          rw [nodeNsName_take7]
          decide
        · rw [List.filter_cons, if_neg ?_, f3]
          unfold isElemSsVar
          rw [nodeNsName_take7]
          decide
        · rw [List.filter_cons, if_neg ?_, f4]
          unfold isSideSsVar
          rw [nodeNsName_take7]
          decide

/-- The side-set loop writes one `elem_ss` variable (1-based element
indices) and one `side_ss` variable (unmodified side numbers) per set. -/
theorem ssetVars_filters :
    ∀ (ss : List (List Char × NArr (List (Int × Int)))) (k : Nat)
      (vs : List (List Char × Var)),
      ssetVars k ss = .ok vs →
      (vs.filter isElemSsVar).map (fun kv => kv.2.data)
        = ss.map (fun p => VarData.a1 (p.2.data.map (fun q => q.1 + 1))) ∧
      (vs.filter isSideSsVar).map (fun kv => kv.2.data)
        = ss.map (fun p => VarData.a1 (p.2.data.map (fun q => q.2))) ∧
      vs.filter isConnectVar = [] ∧ vs.filter isNodeNsVar = [] := by
  intro ss
  induction ss with
  | nil =>
    intro k vs h
    rw [← Except.ok.inj h]
    exact ⟨rfl, rfl, rfl, rfl⟩
  | cons p ps ih =>
    intro k vs h
    unfold ssetVars at h
    cases hdt : alookup p.2.dtype numpy_to_exodus_dtype with
    | none => simp only [hdt] at h; exact absurd h (by simp)
    | some d =>
      simp only [hdt] at h
      cases heq2 : ssetVars (k + 1) ps with
      | error e => simp only [heq2] at h; exact absurd h (by simp)
      | ok rest =>
        simp only [heq2] at h
        rw [← Except.ok.inj h]
        obtain ⟨f1, f2, f3, f4⟩ := ih (k + 1) rest heq2
        have he1 : isElemSsVar (elemSsName k,
            { elemType := none, data := .a1 (p.2.data.map (fun q => q.1 + 1)) }) = true := by
          unfold isElemSsVar
          rw [elemSsName_take7]
          exact beq_self_eq_true _
        have hs1 : isSideSsVar (sideSsName k,
            { elemType := none, data := .a1 (p.2.data.map (fun q => q.2)) }) = true := by
          unfold isSideSsVar
          rw [sideSsName_take7]
          exact beq_self_eq_true _
        refine ⟨?_, ?_, ?_, ?_⟩
        · rw [List.filter_cons, if_pos he1, List.filter_cons, if_neg ?_]
          · simp [f1]
          · unfold isElemSsVar
            rw [sideSsName_take7]
            decide
        · rw [List.filter_cons, if_neg ?_, List.filter_cons, if_pos hs1]
          · simp [f2]
          · unfold isSideSsVar
            rw [elemSsName_take7]
            decide
        · rw [List.filter_cons, if_neg ?_, List.filter_cons, if_neg ?_, f3]
          · unfold isConnectVar
            rw [sideSsName_take7]
            decide
          · unfold isConnectVar
            rw [elemSsName_take7]
            decide
        · rw [List.filter_cons, if_neg ?_, List.filter_cons, if_neg ?_, f4]
          · unfold isNodeNsVar
            rw [sideSsName_take7]
            decide
          · unfold isNodeNsVar
            rw [elemSsName_take7]
            decide

/-- The whole node-set section: the `node_ns` variables carry the 1-based
indices, and no connect / side-set variables are produced. -/
theorem nsetSection_filters (ns : List (List Char × NArr (List Int)))
    (nvs : List (List Char × Var)) (h : nsetSection ns = .ok nvs) :
    (nvs.filter isNodeNsVar).map (fun kv => kv.2.data)
      = ns.map (fun p => VarData.a1 (p.2.data.map (fun x => x + 1))) ∧
    nvs.filter isConnectVar = [] ∧ nvs.filter isElemSsVar = [] ∧
    nvs.filter isSideSsVar = [] := by
  cases ns with
  | nil =>
    rw [← Except.ok.inj h]
    exact ⟨rfl, rfl, rfl, rfl⟩
  | cons q qs =>
    unfold nsetSection at h
    dsimp only at h
    cases heq : encodeAll ((q :: qs).map (fun p => p.1)) with
    | error e => simp only [heq] at h; exact absurd h (by simp)
    | ok rows =>
      simp only [heq] at h
      cases heq2 : nsetVars 0 (q :: qs) with
      | error e => simp only [heq2] at h; exact absurd h (by simp)
      | ok vs =>
        simp only [heq2] at h
        rw [← Except.ok.inj h]
        obtain ⟨f1, f2, f3, f4⟩ := nsetVars_filters (q :: qs) 0 vs heq2
        refine ⟨?_, ?_, ?_, ?_⟩
        · rw [List.filter_cons, if_neg (by simp [isNodeNsVar]), List.filter_cons,
            if_neg (by simp [isNodeNsVar]), f1]
        · rw [List.filter_cons, if_neg (by simp [isConnectVar]), List.filter_cons,
            if_neg (by simp [isConnectVar]), f2]
        · rw [List.filter_cons, if_neg (by simp [isElemSsVar]), List.filter_cons,
            if_neg (by simp [isElemSsVar]), f3]
        · rw [List.filter_cons, if_neg (by simp [isSideSsVar]), List.filter_cons,
            if_neg (by simp [isSideSsVar]), f4]

/-- The whole side-set section: `elem_ss` variables carry the 1-based
element indices, `side_ss` variables the unmodified side numbers, and no
connect / node-set variables are produced. -/
theorem ssetSection_filters (ss : List (List Char × NArr (List (Int × Int))))
    (svs : List (List Char × Var)) (h : ssetSection ss = .ok svs) :
    (svs.filter isElemSsVar).map (fun kv => kv.2.data)
      = ss.map (fun p => VarData.a1 (p.2.data.map (fun q => q.1 + 1))) ∧
    (svs.filter isSideSsVar).map (fun kv => kv.2.data)
      = ss.map (fun p => VarData.a1 (p.2.data.map (fun q => q.2))) ∧
    svs.filter isConnectVar = [] ∧ svs.filter isNodeNsVar = [] := by
  cases ss with
  | nil =>
    rw [← Except.ok.inj h]
    exact ⟨rfl, rfl, rfl, rfl⟩
  | cons q qs =>
    unfold ssetSection at h
    dsimp only at h
    cases heq : encodeAll ((q :: qs).map (fun p => p.1)) with
    | error e => simp only [heq] at h; exact absurd h (by simp)
    | ok rows =>
      simp only [heq] at h
      cases heq2 : ssetVars 0 (q :: qs) with
      | error e => simp only [heq2] at h; exact absurd h (by simp)
      | ok vs =>
        simp only [heq2] at h
        rw [← Except.ok.inj h]
        obtain ⟨f1, f2, f3, f4⟩ := ssetVars_filters (q :: qs) 0 vs heq2
        refine ⟨?_, ?_, ?_, ?_⟩
        · rw [List.filter_cons, if_neg (by simp [isElemSsVar]), List.filter_cons,
            if_neg (by simp [isElemSsVar]), f1]
        · rw [List.filter_cons, if_neg (by simp [isSideSsVar]), List.filter_cons,
            if_neg (by simp [isSideSsVar]), f2]
        · rw [List.filter_cons, if_neg (by simp [isConnectVar]), List.filter_cons,
            if_neg (by simp [isConnectVar]), f3]
        · rw [List.filter_cons, if_neg (by simp [isNodeNsVar]), List.filter_cons,
            if_neg (by simp [isNodeNsVar]), f4]

/-- The point-data section produces no connect or set variables. -/
theorem pointDataVars_filters (pd : List (List Char × NArr (List Int))) (n : Nat)
    (pvs : List (List Char × Var)) (h : pointDataVars pd n = .ok pvs) :
    pvs.filter isConnectVar = [] ∧ pvs.filter isNodeNsVar = [] ∧
    pvs.filter isElemSsVar = [] ∧ pvs.filter isSideSsVar = [] := by
  rcases pointDataVars_shape pd n pvs h with ⟨_, hpv0⟩ | ⟨rows, _, hpv0⟩ <;> subst hpv0
  · exact ⟨rfl, rfl, rfl, rfl⟩
  · exact ⟨rfl, rfl, rfl, rfl⟩

/-- C2: in the container a successful write produces, the `connect`
variables hold exactly the cell rows incremented by 1 (block by block, in
order), the `node_ns` variables the node-set indices incremented by 1, the
`elem_ss` variables the side-set element column incremented by 1, and the
`side_ss` variables the side-set side-number column unmodified. -/
theorem c2_one_based_on_disk (m : ExMesh) (c : Container)
    (hw : exWrite m = .ok c) :
    ((c.vars.filter isConnectVar).map (fun kv => kv.2.data)
       = m.cells.map (fun p =>
           VarData.a2 (p.2.data.map (fun r => r.map (fun x => x + 1))))) ∧
    ((c.vars.filter isNodeNsVar).map (fun kv => kv.2.data)
       = m.nsets.map (fun p => VarData.a1 (p.2.data.map (fun x => x + 1)))) ∧
    ((c.vars.filter isElemSsVar).map (fun kv => kv.2.data)
       = m.ssets.map (fun p => VarData.a1 (p.2.data.map (fun q => q.1 + 1)))) ∧
    ((c.vars.filter isSideSsVar).map (fun kv => kv.2.data)
       = m.ssets.map (fun p => VarData.a1 (p.2.data.map (fun q => q.2)))) := by
  obtain ⟨cvs, pvs, nvs, svs, hcv, hpv, hnv, hsv, hsh, hc⟩ := exWrite_ok_shape m c hw
  subst hc
  obtain ⟨c1, c2, c3, c4, c5⟩ := connectVars_filters m.cells 0 cvs hcv
  obtain ⟨p1, p2, p3, p4⟩ := pointDataVars_filters m.pointData.entries m.points.data.length pvs hpv
  obtain ⟨n1, n2, n3, n4⟩ := nsetSection_filters m.nsets nvs hnv
  obtain ⟨s1, s2, s3, s4⟩ := ssetSection_filters m.ssets svs hsv
  have hd1 : ∀ l : List (List Char × Var),
      List.filter isConnectVar
        ([ ("time_whole".toList, { elemType := none, data := VarData.a1 [0] })
         , ("coor_names".toList, { elemType := none, data := VarData.s2 coorNamesRows })
         , ("coord".toList, { elemType := none, data := VarData.a2 (tr m.points.data) })
         , ("eb_prop1".toList,
            { elemType := none
            , data := VarData.a1 ((List.range m.cells.length).map Int.ofNat) }) ] ++ l)
        = List.filter isConnectVar l := fun l => rfl
  have hd2 : ∀ l : List (List Char × Var),
      List.filter isNodeNsVar
        ([ ("time_whole".toList, { elemType := none, data := VarData.a1 [0] })
         , ("coor_names".toList, { elemType := none, data := VarData.s2 coorNamesRows })
         , ("coord".toList, { elemType := none, data := VarData.a2 (tr m.points.data) })
         , ("eb_prop1".toList,
            { elemType := none
            , data := VarData.a1 ((List.range m.cells.length).map Int.ofNat) }) ] ++ l)
        = List.filter isNodeNsVar l := fun l => rfl
  have hd3 : ∀ l : List (List Char × Var),
      List.filter isElemSsVar
        ([ ("time_whole".toList, { elemType := none, data := VarData.a1 [0] })
         , ("coor_names".toList, { elemType := none, data := VarData.s2 coorNamesRows })
         , ("coord".toList, { elemType := none, data := VarData.a2 (tr m.points.data) })
         , ("eb_prop1".toList,
            { elemType := none
            , data := VarData.a1 ((List.range m.cells.length).map Int.ofNat) }) ] ++ l)
        = List.filter isElemSsVar l := fun l => rfl
  have hd4 : ∀ l : List (List Char × Var),
      List.filter isSideSsVar
        ([ ("time_whole".toList, { elemType := none, data := VarData.a1 [0] })
         , ("coor_names".toList, { elemType := none, data := VarData.s2 coorNamesRows })
         , ("coord".toList, { elemType := none, data := VarData.a2 (tr m.points.data) })
         , ("eb_prop1".toList,
            { elemType := none
            , data := VarData.a1 ((List.range m.cells.length).map Int.ofNat) }) ] ++ l)
        = List.filter isSideSsVar l := fun l => rfl
  refine ⟨?_, ?_, ?_, ?_⟩
  · rw [show ([ ("time_whole".toList, { elemType := none, data := VarData.a1 [0] })
         , ("coor_names".toList, { elemType := none, data := VarData.s2 coorNamesRows })
         , ("coord".toList, { elemType := none, data := VarData.a2 (tr m.points.data) })
         , ("eb_prop1".toList,
            { elemType := none
            , data := VarData.a1 ((List.range m.cells.length).map Int.ofNat) }) ]
         ++ cvs ++ pvs ++ nvs ++ svs : List (List Char × Var)).filter isConnectVar
      = (cvs ++ pvs ++ nvs ++ svs).filter isConnectVar from hd1 _]
    rw [List.filter_append, List.filter_append, List.filter_append]
    rw [c1, p1, n2, s3]
    simp [c2]
  · rw [show ([ ("time_whole".toList, { elemType := none, data := VarData.a1 [0] })
         , ("coor_names".toList, { elemType := none, data := VarData.s2 coorNamesRows })
         , ("coord".toList, { elemType := none, data := VarData.a2 (tr m.points.data) })
         , ("eb_prop1".toList,
            { elemType := none
            , data := VarData.a1 ((List.range m.cells.length).map Int.ofNat) }) ]
         ++ cvs ++ pvs ++ nvs ++ svs : List (List Char × Var)).filter isNodeNsVar
      = (cvs ++ pvs ++ nvs ++ svs).filter isNodeNsVar from hd2 _]
    rw [List.filter_append, List.filter_append, List.filter_append]
    rw [c3, p2, s4]
    simp [n1]
  · rw [show ([ ("time_whole".toList, { elemType := none, data := VarData.a1 [0] })
         , ("coor_names".toList, { elemType := none, data := VarData.s2 coorNamesRows })
         , ("coord".toList, { elemType := none, data := VarData.a2 (tr m.points.data) })
         , ("eb_prop1".toList,
            { elemType := none
            , data := VarData.a1 ((List.range m.cells.length).map Int.ofNat) }) ]
         ++ cvs ++ pvs ++ nvs ++ svs : List (List Char × Var)).filter isElemSsVar
      = (cvs ++ pvs ++ nvs ++ svs).filter isElemSsVar from hd3 _]
    rw [List.filter_append, List.filter_append, List.filter_append]
    rw [c4, p3, n3]
    simp [s1]
  · rw [show ([ ("time_whole".toList, { elemType := none, data := VarData.a1 [0] })
         , ("coor_names".toList, { elemType := none, data := VarData.s2 coorNamesRows })
         , ("coord".toList, { elemType := none, data := VarData.a2 (tr m.points.data) })
         , ("eb_prop1".toList,
            { elemType := none
            , data := VarData.a1 ((List.range m.cells.length).map Int.ofNat) }) ]
         ++ cvs ++ pvs ++ nvs ++ svs : List (List Char × Var)).filter isSideSsVar
      = (cvs ++ pvs ++ nvs ++ svs).filter isSideSsVar from hd4 _]
    rw [List.filter_append, List.filter_append, List.filter_append]
    rw [c5, p4, n4]
    simp [s2]

/-- Witness for C2 at the concrete mesh: the connect variable stores the
rows incremented by 1. -/
theorem c2_one_based_on_disk_witness :
    ((c2wCont.vars.filter isConnectVar).map (fun kv => kv.2.data))
      = c2wMesh.cells.map (fun p =>
          VarData.a2 (p.2.data.map (fun r => r.map (fun x => x + 1)))) :=
  (c2_one_based_on_disk c2wMesh c2wCont (by decide)).1
